import Mathlib

/-!
Shallow embedding of `src/validation-engine.js` from rdf-validate-shacl
(fork sroertgen/rdf-validate-shacl).

The engine validates a data graph against SHACL shapes.  Its state (the
result accumulator, the suppression level `recordErrorsLevel`, the violation
counter and the stored fatal error) is modelled explicitly as `EngineState`
and threaded through every operation; a thrown JS exception is modelled as
the `Except` error branch carrying the state at the moment of the throw
(JS does not roll back mutations on `throw`).  Validators are external
collaborators; per the spec's validator contract they are pure with respect
to the engine, so they are embedded as oracle functions from the focus node
and value node to an outcome (or a thrown failure).  Unbounded mutual
recursion between shape validation and constraint dispatch (through the
property-constraint component) is made total with an explicit fuel
parameter; running out of fuel is a distinguished failure.
-/

namespace VE

/-- RDF terms as seen by the engine: named nodes, blank nodes, literals
(with language tag and datatype IRI) and rdfquery collections (list-valued
terms, used only by `nodeLabel`). -/
inductive RDFTerm where
  | namedNode (value : String)
  | blankNode (value : String)
  | literal (value : String) (language : String) (datatypeIri : String)
  | collection (elements : List RDFTerm)
deriving Repr

mutual

/-- Decidable equality for terms (the derive handler does not cover the
nested `List` occurrence). -/
def RDFTerm.deq : (a b : RDFTerm) → Decidable (a = b)
  | .namedNode x, .namedNode y =>
    match decEq x y with
    | isTrue h => isTrue (by rw [h])
    | isFalse h => isFalse (fun hh => h (by injection hh))
  | .blankNode x, .blankNode y =>
    match decEq x y with
    | isTrue h => isTrue (by rw [h])
    | isFalse h => isFalse (fun hh => h (by injection hh))
  | .literal v1 l1 d1, .literal v2 l2 d2 =>
    match decEq v1 v2, decEq l1 l2, decEq d1 d2 with
    | isTrue h1, isTrue h2, isTrue h3 => isTrue (by rw [h1, h2, h3])
    | isFalse h1, _, _ => isFalse (fun hh => by injection hh with a b c; exact h1 a)
    | _, isFalse h2, _ => isFalse (fun hh => by injection hh with a b c; exact h2 b)
    | _, _, isFalse h3 => isFalse (fun hh => by injection hh with a b c; exact h3 c)
  | .collection xs, .collection ys =>
    match RDFTerm.deqList xs ys with
    | isTrue h => isTrue (by rw [h])
    | isFalse h => isFalse (fun hh => h (by injection hh))
  | .namedNode _, .blankNode _ => isFalse (fun h => RDFTerm.noConfusion h)
  | .namedNode _, .literal _ _ _ => isFalse (fun h => RDFTerm.noConfusion h)
  | .namedNode _, .collection _ => isFalse (fun h => RDFTerm.noConfusion h)
  | .blankNode _, .namedNode _ => isFalse (fun h => RDFTerm.noConfusion h)
  | .blankNode _, .literal _ _ _ => isFalse (fun h => RDFTerm.noConfusion h)
  | .blankNode _, .collection _ => isFalse (fun h => RDFTerm.noConfusion h)
  | .literal _ _ _, .namedNode _ => isFalse (fun h => RDFTerm.noConfusion h)
  | .literal _ _ _, .blankNode _ => isFalse (fun h => RDFTerm.noConfusion h)
  | .literal _ _ _, .collection _ => isFalse (fun h => RDFTerm.noConfusion h)
  | .collection _, .namedNode _ => isFalse (fun h => RDFTerm.noConfusion h)
  | .collection _, .blankNode _ => isFalse (fun h => RDFTerm.noConfusion h)
  | .collection _, .literal _ _ _ => isFalse (fun h => RDFTerm.noConfusion h)

/-- Decidable equality for term lists. -/
def RDFTerm.deqList : (xs ys : List RDFTerm) → Decidable (xs = ys)
  | [], [] => isTrue rfl
  | [], _ :: _ => isFalse (fun h => List.noConfusion h)
  | _ :: _, [] => isFalse (fun h => List.noConfusion h)
  | x :: xs, y :: ys =>
    match RDFTerm.deq x y, RDFTerm.deqList xs ys with
    | isTrue h1, isTrue h2 => isTrue (by rw [h1, h2])
    | isFalse h1, _ => isFalse (fun hh => by injection hh with a b; exact h1 a)
    | _, isFalse h2 => isFalse (fun hh => by injection hh with a b; exact h2 b)

end

instance : DecidableEq RDFTerm := RDFTerm.deq

/-- `term.value` in JS: the lexical value of a term.  A collection has no
`value` field in JS (it would read `undefined`); the engine never reads it,
so it is mapped to the empty string. -/
def termValue : RDFTerm → String
  | .namedNode v => v
  | .blankNode v => v
  | .literal v _ _ => v
  | .collection _ => ""

/-- `term.language` in JS: the language tag of a literal; reading it on a
non-literal yields `undefined`, which behaves as the absent tag here. -/
def termLanguage : RDFTerm → String
  | .literal _ l _ => l
  | _ => ""

/-- The datatype IRI of a literal (empty for non-literals). -/
def termDatatype : RDFTerm → String
  | .literal _ _ d => d
  | _ => ""

/-- RDF/JS `Term.equals`: same term type and same value (literals also
compare language and datatype).  Collections are not RDF/JS terms and
compare unequal. -/
def termEquals : RDFTerm → RDFTerm → Bool
  | .namedNode a, .namedNode b => a == b
  | .blankNode a, .blankNode b => a == b
  | .literal v l d, .literal v' l' d' => v == v' && l == l' && d == d'
  | _, _ => false

/-- `T(curie)` from rdfquery: resolves a CURIE to a named node.  The
embedding keeps the CURIE text itself as the (injective) identifier. -/
def T (curie : String) : RDFTerm := .namedNode curie

/-- An RDF quad (graph component omitted; the engine only builds triples in
the default graph via `rdf.quad`). -/
structure Quad where
  subj : RDFTerm
  pred : RDFTerm
  obj : RDFTerm
deriving Repr, DecidableEq

/-- A thrown JS exception: `Error` (e.g. the missing-validator throw),
`TypeError` (e.g. reading a property of `null`), or the model-only
fuel-exhaustion marker for the unbounded shape recursion. -/
inductive Failure where
  | error (msg : String)
  | typeError (msg : String)
  | fuelExhausted
deriving Repr, DecidableEq

/-! ## nodeLabel -/

/-- The `for (const prefix in store.namespaces)` loop of `nodeLabel`:
first declared namespace whose IRI starts the given IRI wins
(`value.indexOf(ns) === 0`), else the IRI is wrapped in angle brackets. -/
def nsLabelLoop : List (String × String) → String → String
  | [], v => "<" ++ v ++ ">"
  | (pfx, ns) :: rest, v =>
    if ns.data.isPrefixOf v.data then pfx ++ ":" ++ (v.drop ns.length)
    else nsLabelLoop rest v

mutual

/-- `nodeLabel(node, store)`: render a term for message substitution.
Collections render as their elements' labels joined by ", "; a named node
uses the first declared namespace (iteration order of `store.namespaces`)
whose IRI prefixes the node's IRI, else the IRI in angle brackets; a blank
node renders as "Blank node " + id; anything else renders its value. -/
def nodeLabel (namespaces : List (String × String)) : RDFTerm → String
  | .collection elems => String.intercalate ", " (nodeLabels namespaces elems)
  | .namedNode v => nsLabelLoop namespaces v
  | .blankNode v => "Blank node " ++ v
  | .literal v _ _ => v

/-- Labels of a collection's elements, in order. -/
def nodeLabels (namespaces : List (String × String)) : List RDFTerm → List String
  | [] => []
  | t :: ts => nodeLabel namespaces t :: nodeLabels namespaces ts

end

/-! ## JS `String.prototype.replace` with a string pattern -/

/-- Index of the first occurrence of `pat` in `s` (`String.indexOf`). -/
def strFind (s pat : List Char) : Option Nat :=
  if pat.isPrefixOf s then some 0
  else
    match s with
    | [] => none
    | _ :: t => (strFind t pat).map (· + 1)

/-- JS `GetSubstitution` for a string pattern: in the replacement string,
`$$` is a dollar, `$&` the matched text, a dollar followed by a backquote
(character 96) the text before the match, a dollar followed by a quote
(character 39) the text after the match; any other `$`-sequence is kept
literally. -/
def substDollar (matched pre post : List Char) : List Char → List Char
  | [] => []
  | c :: r =>
    if c = Char.ofNat 36 then
      match r with
      | [] => [Char.ofNat 36]
      | d :: r' =>
        (if d = Char.ofNat 36 then [Char.ofNat 36]
         else if d = Char.ofNat 38 then matched
         else if d = Char.ofNat 96 then pre
         else if d = Char.ofNat 39 then post
         else [Char.ofNat 36, d]) ++ substDollar matched pre post r'
    else c :: substDollar matched pre post r

/-- JS `s.replace(pat, rep)` with string arguments: only the first
occurrence of `pat` is replaced; the replacement text goes through
`GetSubstitution`. -/
def jsReplaceL (s pat rep : List Char) : List Char :=
  match strFind s pat with
  | none => s
  | some i =>
    s.take i ++ substDollar pat (s.take i) (s.drop (i + pat.length)) rep
      ++ s.drop (i + pat.length)

/-- String wrapper for `jsReplaceL`. -/
def jsReplace (s pat rep : String) : String :=
  ⟨jsReplaceL s.data pat.data rep.data⟩

/-! ## JS numeric coercion for `msg.language | msg.datatype` -/

/-- Optional-sign digit-string parser (fragment of JS `ToNumber` on
strings sufficient for the terms at hand; fractional, exponent and radix
forms are outside the engine's reachable inputs and are mapped to `none`,
i.e. NaN). -/
def parseSignedDigits? : List Char → Option Int
  | [] => none
  | c :: r =>
    let digits? : List Char → Option Int := fun cs =>
      if cs = [] then none
      else if cs.all Char.isDigit then
        some (Int.ofNat (cs.foldl (fun a c => a * 10 + (c.toNat - 48)) 0))
      else none
    if c = Char.ofNat 45 then (digits? r).map (fun n => -n)
    else if c = Char.ofNat 43 then digits? r
    else digits? (c :: r)

/-- Wrap an integer to the signed 32-bit range (JS `ToInt32`). -/
def int32wrap (n : Int) : Int :=
  let u := n % 4294967296
  if u < 2147483648 then u else u - 4294967296

/-- `ToInt32(ToNumber(language))` for a literal's language tag: the empty
string coerces to 0; a string starting with a letter coerces to NaN (or to
an infinity, for "Infinity"), and `ToInt32` of either is 0; digit strings
coerce to their numeric value. -/
def langToInt32 (s : String) : Int :=
  match s.data with
  | [] => 0
  | c :: _ =>
    if c.isAlpha then 0
    else
      match parseSignedDigits? s.data with
      | some n => int32wrap n
      | none => 0

/-- JS 32-bit `|`, on already-converted operands. -/
def jsOr32 (a b : Int) : Int :=
  let ua := (a % 4294967296).toNat
  let ub := (b % 4294967296).toNat
  let u := Nat.lor ua ub
  if u < 2147483648 then Int.ofNat u else Int.ofNat u - 4294967296

/-- `ToInt32` of the `datatype` field: a literal's datatype is an RDF/JS
named-node object and `ToNumber` of an object (or of `undefined`, for terms
without the field) is NaN, so the operand always converts to 0. -/
def datatypeToInt32 (_t : RDFTerm) : Int := 0

/-- `msg.language | msg.datatype` as evaluated by `withSubstitutions`. -/
def msgLangDtOr (msg : RDFTerm) : Int :=
  jsOr32 (langToInt32 (termLanguage msg)) (datatypeToInt32 msg)

/-- Modelled from the spec: `TermFactory.literal(value, languageOrDatatype)`
when the second argument is a number (the term factory itself is an
external collaborator of the engine, not part of `src/`).  The spec's term
factory builds typed or language-tagged literal values; a falsy (zero)
non-string second argument yields a plain literal with the default
`xsd:string` datatype, while a truthy non-string argument is used as the
datatype. -/
def termFactoryLiteralNum (value : String) (num : Int) : RDFTerm :=
  if num = 0 then .literal value "" "xsd:string"
  else .literal value "" ("datatype-from-number:" ++ toString num)

/-! ## Validator outcomes -/

/-- A non-array value a validator's `execute` may return, as dispatched on
by `createResultFromObject`: `false` (simple violation), `true` or
`undefined` (fall through to "no result"), `null` (typeof object!), a
string (violation with message), or a plain object with optional `path`,
`value` and `message` fields (detailed violation). -/
inductive JSVal where
  | jsFalse
  | jsTrue
  | jsNull
  | jsUndefined
  | jsStr (s : String)
  | jsObj (path : Option RDFTerm) (value : Option RDFTerm) (message : Option String)
deriving Repr, DecidableEq

/-- A validator's full return value: a single value or an array of values
(`Array.isArray` is checked by the dispatcher before normalization). -/
inductive JSOutcome where
  | val (v : JSVal)
  | arr (vs : List JSVal)
deriving Repr, DecidableEq

/-! ## Shapes, constraints, components -/

/-- The slice of a Shape that a Constraint reads through `constraint.shape`:
identity node, severity, path (present iff property shape), deactivated
flag. -/
structure ShapeInfo where
  shapeNode : RDFTerm
  severity : RDFTerm
  path : Option RDFTerm
  deactivated : Bool

/-- `shape.isPropertyShape()`: a shape is a property shape iff it has a
path. -/
def ShapeInfo.isPropertyShape (si : ShapeInfo) : Bool := si.path.isSome

/-- A validation function: `execute(focusNode, valueNode, constraint)`.
Per the spec's validator contract, validators are pure with respect to the
engine, so each is an oracle from the focus node and (optional) value node
to an outcome or a thrown failure; the constraint argument of the JS call
is fixed, since the function is looked up on the constraint itself. -/
structure VFun where
  execute : RDFTerm → Option RDFTerm → Except Failure JSOutcome

/-- A constraint component: identity node, the two optional validator
functions, and their generic flags. -/
structure Component where
  node : RDFTerm
  propertyValidationFunction : Option VFun
  nodeValidationFunction : Option VFun
  propertyValidationFunctionGeneric : Bool
  nodeValidationFunctionGeneric : Bool

/-- A constraint: owning shape's info, component, the parameter value for
property constraints, the named parameter values for message substitution,
and the component's message templates. -/
structure Constraint where
  shape : ShapeInfo
  component : Component
  paramValue : RDFTerm
  parameterValues : List (String × RDFTerm)
  componentMessages : List String

/-- The data graph is opaque to the engine; it is only handed to the
shape's target/value-node resolvers. -/
structure DataGraph where
  quads : List Quad

/-- A shape: its info, constraints, and the oracles resolving its target
nodes and its value nodes for a focus node (external graph-store
collaborators). -/
structure Shape where
  info : ShapeInfo
  constraints : List Constraint
  getTargetNodes : DataGraph → List RDFTerm
  getValueNodes : RDFTerm → DataGraph → List RDFTerm

/-- `ValidationEngineConfiguration`: `getValidationErrorBatch()` is -1 for
unlimited, else the batch limit. -/
structure Config where
  validationErrorBatch : Int

/-- The engine's read-only context for one run: conformance-only flag,
configuration, the shapes graph (shapes with a target and shape lookup by
node), the `sh:message` query on the shapes store, and the store's
declared namespaces. -/
structure Ctx where
  conformanceOnly : Bool
  configuration : Config
  shapesWithTarget : List Shape
  getShape : RDFTerm → Shape
  shapeMessages : RDFTerm → List RDFTerm
  namespaces : List (String × String)

/-- The engine's mutable fields: the result accumulator (`this.results`),
the suppression depth (`this.recordErrorsLevel`), the violation counter
(`this.violationsCount`), the stored fatal error (`this.validationError`)
and the blank-node counter of the term factory. -/
structure EngineState where
  results : List Quad
  recordErrorsLevel : Nat
  violationsCount : Nat
  validationError : Option Failure
  nextBlankId : Nat
deriving DecidableEq

/-- A fresh engine (the constructor). -/
def initState : EngineState :=
  { results := [], recordErrorsLevel := 0, violationsCount := 0
    validationError := none, nextBlankId := 0 }

/-- Result of a stateful engine operation that may throw: either a value
with the updated state, or a thrown failure with the state at the moment of
the throw (JS does not undo mutations when an exception propagates). -/
abbrev ER (α : Type) : Type := Except (Failure × EngineState) (α × EngineState)

/-- Decidable equality for `Except` outcomes. -/
def exceptDecEq {ε α : Type} [DecidableEq ε] [DecidableEq α] : DecidableEq (Except ε α)
  | .ok a, .ok b =>
    match decEq a b with
    | isTrue h => isTrue (by rw [h])
    | isFalse h => isFalse (fun hh => h (by injection hh))
  | .error a, .error b =>
    match decEq a b with
    | isTrue h => isTrue (by rw [h])
    | isFalse h => isFalse (fun hh => h (by injection hh))
  | .ok _, .error _ => isFalse (fun h => Except.noConfusion h)
  | .error _, .ok _ => isFalse (fun h => Except.noConfusion h)

instance {ε α : Type} [DecidableEq ε] [DecidableEq α] : DecidableEq (Except ε α) :=
  exceptDecEq

/-! ## Engine operations -/

/-- `maxErrorsReached()`: false when the batch is -1 (unlimited), else
whether the violation counter has reached the batch limit. -/
def maxErrorsReached (cfg : Config) (s : EngineState) : Bool :=
  if cfg.validationErrorBatch = -1 then false
  else (s.violationsCount : Int) ≥ cfg.validationErrorBatch

/-- `addResultProperty`: push `rdf.quad(result, predicate, object)` onto the
result accumulator. -/
def addResultProperty (s : EngineState) (result predicate object : RDFTerm) : EngineState :=
  { s with results := s.results ++ [⟨result, predicate, object⟩] }

/-- `createResult`: allocate a fresh blank node and attach the default
result properties (type, severity, source constraint component, source
shape, focus node, and the value node when given). -/
def createResult (c : Constraint) (focusNode : RDFTerm) (valueNode : Option RDFTerm)
    (s : EngineState) : RDFTerm × EngineState :=
  let result := RDFTerm.blankNode ("b" ++ toString s.nextBlankId)
  let s := { s with nextBlankId := s.nextBlankId + 1 }
  let s := addResultProperty s result (T "rdf:type") (T "sh:ValidationResult")
  let s := addResultProperty s result (T "sh:resultSeverity") c.shape.severity
  let s := addResultProperty s result (T "sh:sourceConstraintComponent") c.component.node
  let s := addResultProperty s result (T "sh:sourceShape") c.shape.shapeNode
  let s := addResultProperty s result (T "sh:focusNode") focusNode
  let s := match valueNode with
    | some v => addResultProperty s result (T "sh:value") v
    | none => s
  (result, s)

/-- `withSubstitutions`: substitute every named constraint parameter's
label for its `{$name}` and `{?name}` placeholders (one `String.replace`
each, replacing the first occurrence), then rebuild the literal with
`msg.language | msg.datatype` as the language-or-datatype argument. -/
def withSubstitutions (ctx : Ctx) (msg : RDFTerm) (c : Constraint) : RDFTerm :=
  let str := c.parameterValues.foldl
    (fun str kv =>
      let label := nodeLabel ctx.namespaces kv.2
      let str := jsReplace str ("\x7b$" ++ kv.1 ++ "\x7d") label
      jsReplace str ("\x7b?" ++ kv.1 ++ "\x7d") label)
    (termValue msg)
  termFactoryLiteralNum str (msgLangDtOr msg)

/-- `createResultMessages`: message templates come from the shape's
`sh:message` values, else the component's message templates, else the
component node's `sh:message` values; each is pushed (after substitution)
as an `sh:resultMessage` of the result. -/
def createResultMessages (ctx : Ctx) (result : RDFTerm) (c : Constraint)
    (s : EngineState) : EngineState :=
  let ms := ctx.shapeMessages c.shape.shapeNode
  let ms := if ms.length = 0 then c.componentMessages.map (fun m => RDFTerm.literal m "" "xsd:string")
    else ms
  let ms := if ms.length = 0 then ctx.shapeMessages c.component.node else ms
  ms.foldl
    (fun s m => addResultProperty s result (T "sh:resultMessage") (withSubstitutions ctx m c))
    s

/-- `createResultFromObject(obj, constraint, focusNode, valueNode)`:
normalize one validator outcome.  `false` and strings and objects each
first short-circuit on a positive suppression level (reporting a violation
unless in conformance-only mode) and then on conformance-only mode; `null`
has `typeof null === 'object'` and reaches the object branch, where (after
`createResult` has already run) reading `obj.path` throws a `TypeError`;
`true`/`undefined` fall through to `return false`. -/
def createResultFromObject (ctx : Ctx) (obj : JSVal) (c : Constraint)
    (focusNode : RDFTerm) (valueNode : Option RDFTerm) (s : EngineState) : ER Bool :=
  match obj with
  | .jsFalse =>
    if s.recordErrorsLevel > 0 then
      if ctx.conformanceOnly then .ok (false, s) else .ok (true, s)
    else if ctx.conformanceOnly then .ok (false, s)
    else
      let (result, s) := createResult c focusNode valueNode s
      let s := if c.shape.isPropertyShape then
          match c.shape.path with
          | some p => addResultProperty s result (T "sh:resultPath") p
          | none => s
        else s
      let s := createResultMessages ctx result c s
      .ok (true, s)
  | .jsStr m =>
    if s.recordErrorsLevel > 0 then
      if ctx.conformanceOnly then .ok (false, s) else .ok (true, s)
    else if ctx.conformanceOnly then .ok (false, s)
    else
      let (result, s) := createResult c focusNode valueNode s
      let s := if c.shape.isPropertyShape then
          match c.shape.path with
          | some p => addResultProperty s result (T "sh:resultPath") p
          | none => s
        else s
      let s := addResultProperty s result (T "sh:resultMessage") (RDFTerm.literal m "" "xsd:string")
      let s := createResultMessages ctx result c s
      .ok (true, s)
  | .jsObj objPath objValue objMessage =>
    if s.recordErrorsLevel > 0 then
      if ctx.conformanceOnly then .ok (false, s) else .ok (true, s)
    else if ctx.conformanceOnly then .ok (false, s)
    else
      let (result, s) := createResult c focusNode none s
      let s := match objPath with
        | some p => addResultProperty s result (T "sh:resultPath") p
        | none =>
          if c.shape.isPropertyShape then
            match c.shape.path with
            | some p => addResultProperty s result (T "sh:resultPath") p
            | none => s
          else s
      let s := match objValue with
        | some v => addResultProperty s result (T "sh:value") v
        | none =>
          match valueNode with
          | some v => addResultProperty s result (T "sh:value") v
          | none => s
      let s := match objMessage with
        | some m => addResultProperty s result (T "sh:resultMessage") (RDFTerm.literal m "" "xsd:string")
        | none => createResultMessages ctx result c s
      .ok (true, s)
  | .jsNull =>
    if s.recordErrorsLevel > 0 then
      if ctx.conformanceOnly then .ok (false, s) else .ok (true, s)
    else if ctx.conformanceOnly then .ok (false, s)
    else
      let (_result, s) := createResult c focusNode none s
      .error (Failure.typeError "Cannot read properties of null (reading 'path')", s)
  | .jsTrue => .ok (false, s)
  | .jsUndefined => .ok (false, s)

/-- The `for (let a = 0; ...)` loops over an array outcome: normalize each
element, OR-ing the per-element booleans into the accumulator. -/
def resultArrayLoop (ctx : Ctx) (c : Constraint) (focusNode : RDFTerm)
    (valueNode : Option RDFTerm) : List JSVal → Bool → EngineState → ER Bool
  | [], acc, s => .ok (acc, s)
  | x :: rest, acc, s =>
    match createResultFromObject ctx x c focusNode valueNode s with
    | .error e => .error e
    | .ok (b, s') => resultArrayLoop ctx c focusNode valueNode rest (acc || b) s'

/-- The generic-validator loop (`for (let i = 0; i < valueNodes.length...`):
break once the batch limit is reached; otherwise bracket the call in a
suppression-level increment/decrement (the decrement is skipped when
`execute` throws, as in the source, which has no `finally`), normalize the
outcome(s) with the current value node, bump the violation counter once per
value node whose iteration confirmed a violation, and OR the iteration
results. -/
def genericValueLoop (ctx : Ctx) (c : Constraint) (vf : VFun) (focusNode : RDFTerm) :
    List RDFTerm → Bool → EngineState → ER Bool
  | [], acc, s => .ok (acc, s)
  | v :: rest, acc, s =>
    if maxErrorsReached ctx.configuration s then .ok (acc, s)
    else
      let s1 := { s with recordErrorsLevel := s.recordErrorsLevel + 1 }
      match vf.execute focusNode (some v) with
      | .error e => .error (e, s1)
      | .ok obj =>
        let s2 := { s1 with recordErrorsLevel := s1.recordErrorsLevel - 1 }
        let normalized : ER Bool :=
          match obj with
          | .arr elems => resultArrayLoop ctx c focusNode (some v) elems false s2
          | .val x => createResultFromObject ctx x c focusNode (some v) s2
        match normalized with
        | .error e => .error e
        | .ok (iterationError, s3) =>
          let s4 := if iterationError then
              { s3 with violationsCount := s3.violationsCount + 1 }
            else s3
          genericValueLoop ctx c vf focusNode rest (acc || iterationError) s4

/-- The common shape of the engine's `for`-loops that OR a per-item boolean
into an accumulator (`if (call(...)) flag = true`), stopping when a call
throws. -/
def orLoop (f : α → EngineState → ER Bool) : List α → Bool → EngineState → ER Bool
  | [], acc, s => .ok (acc, s)
  | x :: rest, acc, s =>
    match f x s with
    | .error e => .error e
    | .ok (b, s') => orLoop f rest (acc || b) s'

mutual

/-- `validateNodeAgainstShape(focusNode, shape, rdfDataGraph)`: true when
the batch limit is reached; false when the shape is deactivated; otherwise
the OR over the shape's constraints of the dispatcher results for the
shape's value nodes. -/
def validateNodeAgainstShape : Nat → Ctx → RDFTerm → Shape → DataGraph → EngineState → ER Bool
  | fuel, ctx, focusNode, shape, g, s =>
    if maxErrorsReached ctx.configuration s then .ok (true, s)
    else
      match fuel with
      | 0 => .error (Failure.fuelExhausted, s)
      | fuel' + 1 =>
        if shape.info.deactivated then .ok (false, s)
        else
          let valueNodes := shape.getValueNodes focusNode g
          orLoop (fun c s => validateNodeAgainstConstraint fuel' ctx focusNode valueNodes c g s)
            shape.constraints false s

/-- `validateNodeAgainstConstraint`: true when the batch limit is reached;
for the property-constraint component, recurse into the nested shape once
per value node and OR the results (no batch check in this loop; the nested
calls perform their own); otherwise select the property/node validation
function (throwing when missing), and run it generically per value node or
once for the whole shape. -/
def validateNodeAgainstConstraint :
    Nat → Ctx → RDFTerm → List RDFTerm → Constraint → DataGraph → EngineState → ER Bool
  | fuel, ctx, focusNode, valueNodes, c, g, s =>
    if maxErrorsReached ctx.configuration s then .ok (true, s)
    else
      match fuel with
      | 0 => .error (Failure.fuelExhausted, s)
      | fuel' + 1 =>
        if termEquals (T "sh:PropertyConstraintComponent") c.component.node then
          orLoop (fun v s => validateNodeAgainstShape fuel' ctx v (ctx.getShape c.paramValue) g s)
            valueNodes false s
        else
          let vfOpt := if c.shape.isPropertyShape then c.component.propertyValidationFunction
            else c.component.nodeValidationFunction
          match vfOpt with
          | none =>
            .error (Failure.error
              ("Cannot find validator for constraint component " ++ termValue c.component.node), s)
          | some vf =>
            let generic := if c.shape.isPropertyShape then c.component.propertyValidationFunctionGeneric
              else c.component.nodeValidationFunctionGeneric
            if generic then
              genericValueLoop ctx c vf focusNode valueNodes false s
            else
              let s1 := { s with recordErrorsLevel := s.recordErrorsLevel + 1 }
              match vf.execute focusNode none with
              | .error e => .error (e, s1)
              | .ok obj =>
                let s2 := { s1 with recordErrorsLevel := s1.recordErrorsLevel - 1 }
                match obj with
                | .arr elems => resultArrayLoop ctx c focusNode none elems false s2
                | .val x =>
                  match createResultFromObject ctx x c focusNode none s2 with
                  | .error e => .error e
                  | .ok (b, s3) => .ok (b, s3)

end

/-- The focus-node loop of `validateAll`. -/
def focusNodesLoop (fuel : Nat) (ctx : Ctx) (shape : Shape) (g : DataGraph)
    (fs : List RDFTerm) (acc : Bool) (s : EngineState) : ER Bool :=
  orLoop (fun f s => validateNodeAgainstShape fuel ctx f shape g s) fs acc s

/-- The shape loop of `validateAll`: resolve each shape's target nodes
against the data graph and validate every focus node, tracking whether any
call reported a violation. -/
def shapesLoop (fuel : Nat) (ctx : Ctx) (g : DataGraph)
    (shapes : List Shape) (acc : Bool) (s : EngineState) : ER Bool :=
  orLoop (fun shape s => focusNodesLoop fuel ctx shape g (shape.getTargetNodes g) false s)
    shapes acc s

/-- `validateAll(rdfDataGraph)`: if the batch limit is already reached,
return true with the state untouched; otherwise clear the stored fatal
error and the result accumulator (the violation counter is not reset) and
traverse every shape with a target; a failure thrown anywhere in the
traversal is caught, stored as the run's fatal error, and turned into a
`true` return. -/
def validateAll (fuel : Nat) (ctx : Ctx) (g : DataGraph) (s : EngineState) :
    Bool × EngineState :=
  if maxErrorsReached ctx.configuration s then (true, s)
  else
    let s0 := { s with validationError := none, results := [] }
    match shapesLoop fuel ctx g ctx.shapesWithTarget false s0 with
    | .ok (foundError, s') => (foundError, s')
    | .error (e, s') => (true, { s' with validationError := some e })

/-- The validation report handed to callers: the accumulated result quads
(`new ValidationReport(this.results)`; the report's further structure is
outside the engine). -/
structure ValidationReport where
  results : List Quad
deriving DecidableEq

/-- `getReport()`: re-raise the stored fatal error when one exists, else
return the accumulated report. -/
def getReport (s : EngineState) : Except Failure ValidationReport :=
  match s.validationError with
  | some e => .error e
  | none => .ok ⟨s.results⟩

/-- Number of materialized ValidationResults in an accumulator: one
`rdf:type sh:ValidationResult` quad is pushed per created result. -/
def countResults (qs : List Quad) : Nat :=
  (qs.filter (fun q =>
    termEquals q.pred (T "rdf:type") && termEquals q.obj (T "sh:ValidationResult"))).length

/-- The boolean of an engine operation's outcome, when it did not throw. -/
def erBool (r : ER Bool) : Option Bool :=
  match r with
  | .ok (b, _) => some b
  | .error _ => none

/-- The state of an engine operation's outcome, when it did not throw. -/
def erState (r : ER Bool) : Option EngineState :=
  match r with
  | .ok (_, s) => some s
  | .error _ => none

/-- Whether `createResultFromObject` treats a value as a violation (its
`false`/string/object/null branches) rather than falling through
(`true`/`undefined`). -/
def jsValViolation : JSVal → Bool
  | .jsFalse => true
  | .jsStr _ => true
  | .jsObj _ _ _ => true
  | .jsNull => true
  | .jsTrue => false
  | .jsUndefined => false

/-! ## Concrete fixtures for counterexamples and witnesses -/

/-- An empty data graph. -/
def g0 : DataGraph := ⟨[]⟩

/-- A node-shape info with no path, not deactivated. -/
def mkInfo (name : String) : ShapeInfo :=
  { shapeNode := .namedNode name, severity := T "sh:Violation", path := none,
    deactivated := false }

/-- A component with only a node validation function. -/
def mkComp (name : String) (vf : Option VFun) (gen : Bool) : Component :=
  { node := .namedNode name, propertyValidationFunction := none,
    nodeValidationFunction := vf, propertyValidationFunctionGeneric := false,
    nodeValidationFunctionGeneric := gen }

/-- A plain constraint on the given shape info with a node validator. -/
def mkConstraint (si : ShapeInfo) (compName : String) (vf : Option VFun) (gen : Bool) :
    Constraint :=
  { shape := si, component := mkComp compName vf gen, paramValue := .namedNode "ex:param",
    parameterValues := [], componentMessages := [] }

/-- A shape whose single target is `ex:f` and whose value nodes are the
focus node itself. -/
def mkShape (si : ShapeInfo) (cs : List Constraint) : Shape :=
  { info := si, constraints := cs,
    getTargetNodes := fun _ => [.namedNode "ex:f"], getValueNodes := fun v _ => [v] }

/-- A context over the given shapes with no messages and no namespaces. -/
def mkCtx (shapes : List Shape) (batch : Int) (conf : Bool) : Ctx :=
  { conformanceOnly := conf, configuration := ⟨batch⟩, shapesWithTarget := shapes,
    getShape := fun _ => ⟨mkInfo "ex:none", [], fun _ => [], fun _ _ => []⟩,
    shapeMessages := fun _ => [], namespaces := [] }

/-- A validator that always reports a violation. -/
def vfFalse : VFun := ⟨fun _ _ => .ok (.val .jsFalse)⟩

/-- A non-generic validator returning a two-element array of violations. -/
def vfArr2 : VFun := ⟨fun _ _ => .ok (.arr [.jsFalse, .jsFalse])⟩

/-- A validator that throws. -/
def vfThrow : VFun := ⟨fun _ _ => .error (.error "validator blew up")⟩

/-- A validator that returns `null`. -/
def vfNull : VFun := ⟨fun _ _ => .ok (.val .jsNull)⟩

def infoA : ShapeInfo := mkInfo "ex:A"

/-- Fixture for C2: one shape, one focus node, one non-generic constraint
whose validator returns `[false, false]`, batch limit 1. -/
def ctxC2 : Ctx := mkCtx [mkShape infoA [mkConstraint infoA "ex:comp" (some vfArr2) false]] 1 false

/-- Fixture for C3/C4: one shape, one focus node, one generic always-false
constraint. -/
def cGen : Constraint := mkConstraint infoA "ex:comp" (some vfFalse) true

def ctxGen (batch : Int) (conf : Bool) : Ctx := mkCtx [mkShape infoA [cGen]] batch conf

/-- Fixture for C1: a generic validator that throws. -/
def ctxThrow : Ctx := mkCtx [mkShape infoA [mkConstraint infoA "ex:comp" (some vfThrow) true]] (-1) false

/-- Fixture for C9: a generic validator returning `null`. -/
def ctxNull : Ctx := mkCtx [mkShape infoA [mkConstraint infoA "ex:comp" (some vfNull) true]] (-1) false

/-- A state with one prior violation and a leftover quad, as left behind by
an earlier run. -/
def sPrior : EngineState :=
  { initState with
    violationsCount := 1
    results := [⟨.namedNode "ex:s", .namedNode "ex:p", .namedNode "ex:o"⟩] }

/-- A context with no shapes at all. -/
def ctxEmpty : Ctx := mkCtx [] (-1) false

/-- A state whose counter has already reached a batch limit of 1. -/
def sReached : EngineState := { initState with violationsCount := 1 }

/-- A state entered at suppression level 1, as inside a logical
combinator's sub-evaluation. -/
def sLvl1 : EngineState := { initState with recordErrorsLevel := 1 }

/-! ## Theorems -/

/-- C1: a failure raised by a validator or the dispatcher during the
traversal makes `validateAll` return true with the failure stored, without
the failure propagating from `validateAll` itself, and `getReport` (on that
state, hence on every later call with no intervening `validateAll`)
re-raises exactly that failure. -/
theorem validateAll_stores_failure_getReport_rethrows
    (fuel : Nat) (ctx : Ctx) (g : DataGraph) (s : EngineState) (e : Failure)
    (s₁ : EngineState)
    (h1 : maxErrorsReached ctx.configuration s = false)
    (h2 : shapesLoop fuel ctx g ctx.shapesWithTarget false
      { s with validationError := none, results := [] } = .error (e, s₁)) :
    validateAll fuel ctx g s = (true, { s₁ with validationError := some e }) ∧
    getReport { s₁ with validationError := some e } = .error e ∧
    getReport (validateAll fuel ctx g s).2 = .error e := by
  refine ⟨?_, rfl, ?_⟩ <;> simp [validateAll, h1, h2, getReport]

/-- Witness for C1 at a concrete throwing validator. -/
theorem validateAll_stores_failure_getReport_rethrows_witness :
    maxErrorsReached ctxThrow.configuration initState = false ∧
    (validateAll 3 ctxThrow g0 initState =
        (true, { sLvl1 with validationError := some (.error "validator blew up") }) ∧
      getReport { sLvl1 with validationError := some (.error "validator blew up") } =
        .error (.error "validator blew up") ∧
      getReport (validateAll 3 ctxThrow g0 initState).2 = .error (.error "validator blew up")) :=
  ⟨by decide,
    validateAll_stores_failure_getReport_rethrows 3 ctxThrow g0 initState
      (.error "validator blew up") sLvl1 (by decide) (by decide)⟩

/-- C2 counterexample: with batch limit N = 1, a single run materializes 2
ValidationResults (a non-generic validator returning an array of two
violations creates one result per element and never touches the violation
counter), so the number of materialized results exceeds N, refuting the
claim that it never does. -/
theorem batch_limit_exceeded_cex :
    ctxC2.configuration.validationErrorBatch = 1 ∧
    (validateAll 5 ctxC2 g0 initState).1 = true ∧
    countResults (validateAll 5 ctxC2 g0 initState).2.results = 2 ∧
    (validateAll 5 ctxC2 g0 initState).2.violationsCount = 0 := by
  refine ⟨rfl, ?_, ?_, ?_⟩ <;> decide

/-- C2 amended: once the violation counter has reached the batch limit,
`validateAll`, `validateNodeAgainstShape` and `validateNodeAgainstConstraint`
each return true immediately with the state untouched (no validator runs);
the count of materialized results, however, is not bounded by the limit. -/
theorem max_errors_reached_short_circuits
    (fuel : Nat) (ctx : Ctx) (focus : RDFTerm) (sh : Shape) (vns : List RDFTerm)
    (c : Constraint) (g : DataGraph) (s : EngineState)
    (h : maxErrorsReached ctx.configuration s = true) :
    validateAll fuel ctx g s = (true, s) ∧
    validateNodeAgainstShape fuel ctx focus sh g s = .ok (true, s) ∧
    validateNodeAgainstConstraint fuel ctx focus vns c g s = .ok (true, s) := by
  refine ⟨?_, ?_, ?_⟩
  · simp [validateAll, h]
  · rw [validateNodeAgainstShape.eq_def]; simp [h]
  · rw [validateNodeAgainstConstraint.eq_def]; simp [h]

/-- Witness for the amended C2 at a concrete reached limit. -/
theorem max_errors_reached_short_circuits_witness :
    maxErrorsReached (ctxGen 1 false).configuration sReached = true ∧
    (validateAll 0 (ctxGen 1 false) g0 sReached = (true, sReached) ∧
      validateNodeAgainstShape 0 (ctxGen 1 false) (.namedNode "ex:f")
        (mkShape infoA [cGen]) g0 sReached = .ok (true, sReached) ∧
      validateNodeAgainstConstraint 0 (ctxGen 1 false) (.namedNode "ex:f")
        [] cGen g0 sReached = .ok (true, sReached)) :=
  ⟨by decide,
    max_errors_reached_short_circuits 0 (ctxGen 1 false) (.namedNode "ex:f")
      (mkShape infoA [cGen]) [] cGen g0 sReached (by decide)⟩

/-- C3 counterexample: the dispatcher entered while `recordErrorsLevel = 1`
(as during a logical combinator's sub-evaluation) still increments the
violation counter for a violating generic iteration — the counter increment
is not guarded by `recordErrorsLevel == 0` (no ValidationResult is
allocated, though), refuting the claim that the counter is incremented only
when `recordErrorsLevel == 0`. -/
theorem suppressed_eval_increments_counter_cex :
    sLvl1.recordErrorsLevel = 1 ∧
    validateNodeAgainstConstraint 5 (ctxGen (-1) false) (.namedNode "ex:f")
        [.namedNode "ex:v"] cGen g0 sLvl1 =
      .ok (true, ⟨[], 1, 1, none, 0⟩) := by
  refine ⟨rfl, ?_⟩; decide

/-- C4 counterexample: on the same data, `validateAll` returns true with
`conformanceOnly = false` but false with `conformanceOnly = true` — the
conformance-only boolean does not match the normal mode (the report is
empty, as claimed). -/
theorem conformance_only_boolean_differs_cex :
    (validateAll 5 (ctxGen (-1) false) g0 initState).1 = true ∧
    (validateAll 5 (ctxGen (-1) true) g0 initState).1 = false ∧
    (validateAll 5 (ctxGen (-1) true) g0 initState).2.results = [] := by
  refine ⟨?_, ?_, ?_⟩ <;> decide

/-- C5 counterexample: `validateAll` entered below the batch limit resets
the result accumulator but leaves the violation counter at its previous
value (1 here) instead of resetting it to zero. -/
theorem validateAll_does_not_reset_counter_cex :
    maxErrorsReached ctxEmpty.configuration sPrior = false ∧
    sPrior.violationsCount = 1 ∧
    validateAll 1 ctxEmpty g0 sPrior =
      (false, { sPrior with results := [], validationError := none }) ∧
    (validateAll 1 ctxEmpty g0 sPrior).2.violationsCount = 1 := by
  refine ⟨rfl, rfl, ?_, ?_⟩ <;> decide

/-- C5 amended: when the batch limit is already reached on entry,
`validateAll` returns true leaving all state unchanged; otherwise the run
is independent of the previous result accumulator and stored error (both
are reset before traversal), and — as the no-shape case shows — the
violation counter is carried over, not reset. -/
theorem validateAll_reset_behavior
    (fuel : Nat) (ctx : Ctx) (g : DataGraph) (s : EngineState)
    (r' : List Quad) (e' : Option Failure) :
    (maxErrorsReached ctx.configuration s = true → validateAll fuel ctx g s = (true, s)) ∧
    (maxErrorsReached ctx.configuration s = false →
      validateAll fuel ctx g s =
        validateAll fuel ctx g { s with results := r', validationError := e' }) ∧
    (maxErrorsReached ctx.configuration s = false → ctx.shapesWithTarget = [] →
      validateAll fuel ctx g s = (false, { s with results := [], validationError := none })) := by
  refine ⟨fun h => ?_, fun h => ?_, fun h h2 => ?_⟩
  · simp [validateAll, h]
  · have h' : maxErrorsReached ctx.configuration
        { s with results := r', validationError := e' } = false := h
    simp [validateAll, h, h']
  · simp [validateAll, h, h2, shapesLoop, orLoop]

/-- Witness for the amended C5 at concrete states. -/
theorem validateAll_reset_behavior_witness :
    maxErrorsReached ctxEmpty.configuration sPrior = false ∧
    ctxEmpty.shapesWithTarget = [] ∧
    validateAll 1 ctxEmpty g0 sPrior =
      validateAll 1 ctxEmpty g0 { sPrior with results := [], validationError := none } ∧
    validateAll 1 ctxEmpty g0 sPrior =
      (false, { sPrior with results := [], validationError := none }) :=
  ⟨by decide, rfl,
    (validateAll_reset_behavior 1 ctxEmpty g0 sPrior [] none).2.1 (by decide),
    (validateAll_reset_behavior 1 ctxEmpty g0 sPrior
      sPrior.results sPrior.validationError).2.2 (by decide) rfl⟩

/-- Helper for C8: `nodeLabels` is the elementwise `nodeLabel`. -/
theorem nodeLabels_eq_map (ns : List (String × String)) (ts : List RDFTerm) :
    nodeLabels ns ts = ts.map (nodeLabel ns) := by
  induction ts with
  | nil => rfl
  | cons t ts ih => simp [nodeLabels, ih]

/-- Helper for C8: the namespace loop picks the first declared namespace
whose IRI prefixes the value. -/
theorem nsLabelLoop_eq_find (ns : List (String × String)) (v : String) :
    nsLabelLoop ns v =
      (match ns.find? (fun pr => pr.2.data.isPrefixOf v.data) with
       | some pr => pr.1 ++ ":" ++ v.drop pr.2.length
       | none => "<" ++ v ++ ">") := by
  induction ns with
  | nil => rfl
  | cons pr rest ih =>
    by_cases hp : pr.2.data.isPrefixOf v.data
    · simp [nsLabelLoop, List.find?_cons_of_pos, hp]
    · simp only [nsLabelLoop]
      rw [List.find?_cons_of_neg]
      · simp [hp, ih]
      · simp [hp]

/-- C8: `nodeLabel` renders a collection as its elements' labels joined by
", "; a named node as prefix:suffix using the first declared namespace (in
declaration order) whose IRI is a prefix of the node's IRI, else the IRI in
angle brackets; a blank node as "Blank node " + id; and any other term as
its literal value. -/
theorem nodeLabel_spec (ns : List (String × String)) :
    (∀ elems, nodeLabel ns (.collection elems) =
      String.intercalate ", " (elems.map (nodeLabel ns))) ∧
    (∀ v, nodeLabel ns (.namedNode v) =
      (match ns.find? (fun pr => pr.2.data.isPrefixOf v.data) with
       | some pr => pr.1 ++ ":" ++ v.drop pr.2.length
       | none => "<" ++ v ++ ">")) ∧
    (∀ v, nodeLabel ns (.blankNode v) = "Blank node " ++ v) ∧
    (∀ v l d, nodeLabel ns (.literal v l d) = v) := by
  refine ⟨fun elems => ?_, fun v => ?_, fun v => rfl, fun v l d => rfl⟩
  · rw [nodeLabel, nodeLabels_eq_map]
  · rw [nodeLabel, nsLabelLoop_eq_find]

/-- A literal's language tag, as found in RDF data, starts with a letter
(or is absent); JS `ToNumber` of such a string is NaN (or an infinity), so
`ToInt32` of it is 0. -/
def langNonNumericFirst (s : String) : Bool :=
  match s.data with
  | [] => true
  | c :: _ => c.isAlpha

/-- C10: `withSubstitutions` rebuilds the message literal with
`msg.language | msg.datatype` as the language-or-datatype argument; both
operands coerce to 0 (the datatype is an object, hence NaN; a non-numeric
language string is NaN as well), so the produced literal drops the original
language tag and datatype and gets the default `xsd:string` datatype. -/
theorem withSubstitutions_drops_language_and_datatype
    (ctx : Ctx) (c : Constraint) (v ℓ dt : String)
    (h : langNonNumericFirst ℓ = true) :
    msgLangDtOr (RDFTerm.literal v ℓ dt) = 0 ∧
    termLanguage (withSubstitutions ctx (RDFTerm.literal v ℓ dt) c) = "" ∧
    termDatatype (withSubstitutions ctx (RDFTerm.literal v ℓ dt) c) = "xsd:string" := by
  have hl : langToInt32 ℓ = 0 := by
    unfold langToInt32
    cases hd : ℓ.data with
    | nil => simp
    | cons a t =>
      have ha : a.isAlpha = true := by
        unfold langNonNumericFirst at h
        rw [hd] at h
        exact h
      simp [ha]
  have h0 : msgLangDtOr (RDFTerm.literal v ℓ dt) = 0 := by
    simp only [msgLangDtOr, termLanguage, datatypeToInt32, hl]
    decide
  refine ⟨h0, ?_, ?_⟩ <;>
    simp [withSubstitutions, h0, termFactoryLiteralNum, termLanguage, termDatatype]

/-- Witness for C10 at a concrete language-tagged template. -/
theorem withSubstitutions_drops_language_and_datatype_witness :
    langNonNumericFirst "en" = true ∧
    (msgLangDtOr (RDFTerm.literal "hi" "en" "rdf:langString") = 0 ∧
      termLanguage (withSubstitutions ctxEmpty (RDFTerm.literal "hi" "en" "rdf:langString") cGen) = "" ∧
      termDatatype (withSubstitutions ctxEmpty (RDFTerm.literal "hi" "en" "rdf:langString") cGen) =
        "xsd:string") :=
  ⟨by decide,
    withSubstitutions_drops_language_and_datatype ctxEmpty cGen "hi" "en" "rdf:langString"
      (by decide)⟩

/-- C9: a `null` validator outcome, with recording enabled and
conformance-only off, takes the object branch of the normalizer: the
default result properties are materialized first, then probing `obj.path`
dereferences `null` and raises a TypeError — `null` is not treated as
NoViolation; end to end, the failure aborts the run, `validateAll` returns
true, and `getReport` re-raises it. -/
theorem null_outcome_raises_type_error
    (ctx : Ctx) (c : Constraint) (fn : RDFTerm) (vn : Option RDFTerm) (s : EngineState)
    (h1 : ctx.conformanceOnly = false) (h2 : s.recordErrorsLevel = 0) :
    createResultFromObject ctx .jsNull c fn vn s =
      .error (Failure.typeError "Cannot read properties of null (reading 'path')",
        { s with
          nextBlankId := s.nextBlankId + 1
          results := s.results ++
            [⟨.blankNode ("b" ++ toString s.nextBlankId), T "rdf:type", T "sh:ValidationResult"⟩,
             ⟨.blankNode ("b" ++ toString s.nextBlankId), T "sh:resultSeverity", c.shape.severity⟩,
             ⟨.blankNode ("b" ++ toString s.nextBlankId), T "sh:sourceConstraintComponent",
               c.component.node⟩,
             ⟨.blankNode ("b" ++ toString s.nextBlankId), T "sh:sourceShape", c.shape.shapeNode⟩,
             ⟨.blankNode ("b" ++ toString s.nextBlankId), T "sh:focusNode", fn⟩] }) ∧
    (validateAll 3 ctxNull g0 initState).1 = true ∧
    (validateAll 3 ctxNull g0 initState).2.validationError =
      some (Failure.typeError "Cannot read properties of null (reading 'path')") ∧
    getReport (validateAll 3 ctxNull g0 initState).2 =
      .error (Failure.typeError "Cannot read properties of null (reading 'path')") := by
  refine ⟨?_, by decide, by decide, by decide⟩
  simp [createResultFromObject, h1, h2, createResult, addResultProperty]

/-- Witness for C9 at a concrete constraint and state. -/
theorem null_outcome_raises_type_error_witness :
    ctxEmpty.conformanceOnly = false ∧
    initState.recordErrorsLevel = 0 ∧
    createResultFromObject ctxEmpty .jsNull cGen (T "ex:f") none initState =
      .error (Failure.typeError "Cannot read properties of null (reading 'path')",
        { initState with
          nextBlankId := 1
          results :=
            [⟨.blankNode "b0", T "rdf:type", T "sh:ValidationResult"⟩,
             ⟨.blankNode "b0", T "sh:resultSeverity", cGen.shape.severity⟩,
             ⟨.blankNode "b0", T "sh:sourceConstraintComponent", cGen.component.node⟩,
             ⟨.blankNode "b0", T "sh:sourceShape", cGen.shape.shapeNode⟩,
             ⟨.blankNode "b0", T "sh:focusNode", T "ex:f"⟩] }) :=
  ⟨rfl, rfl,
    ((null_outcome_raises_type_error ctxEmpty cGen (T "ex:f") none initState rfl rfl).1)⟩

/-- C3 amended: an outcome normalized while `recordErrorsLevel > 0` never
allocates a ValidationResult and leaves the whole state (counter included)
unchanged while still reporting to its caller whether the outcome was a
violation; the dispatcher's per-iteration counter increment, however, is
not guarded by the suppression level: a violating generic iteration
increments the counter even when the dispatcher is entered with
`recordErrorsLevel > 0`. -/
theorem suppression_skips_allocation_not_counter
    (ctx : Ctx) (obj : JSVal) (c : Constraint) (fn : RDFTerm) (vn : Option RDFTerm)
    (s : EngineState) (n : Nat) (c' : Constraint) (f' v' : RDFTerm) (g : DataGraph)
    (s' : EngineState)
    (h1 : ctx.conformanceOnly = false)
    (h2 : 0 < s.recordErrorsLevel)
    (h3 : maxErrorsReached ctx.configuration s' = false)
    (h4 : 0 < s'.recordErrorsLevel)
    (h5 : termEquals (T "sh:PropertyConstraintComponent") c'.component.node = false)
    (h6 : c'.shape.path = none)
    (h7 : c'.component.nodeValidationFunction = some vfFalse)
    (h8 : c'.component.nodeValidationFunctionGeneric = true) :
    createResultFromObject ctx obj c fn vn s = .ok (jsValViolation obj, s) ∧
    validateNodeAgainstConstraint (n + 1) ctx f' [v'] c' g s' =
      .ok (true, { s' with violationsCount := s'.violationsCount + 1 }) := by
  constructor
  · cases obj <;> simp [createResultFromObject, jsValViolation, h1, h2]
  · rw [validateNodeAgainstConstraint.eq_def]
    simp only [h3, Bool.false_eq_true, if_false]
    simp only [h5, Bool.false_eq_true, if_false]
    simp [ShapeInfo.isPropertyShape, h6, h7, h8, genericValueLoop, h3, vfFalse,
      createResultFromObject, h1, h4, Nat.add_sub_cancel]

/-- Witness for the amended C3, entering the dispatcher at level 1. -/
theorem suppression_skips_allocation_not_counter_witness :
    (ctxGen (-1) false).conformanceOnly = false ∧
    0 < sLvl1.recordErrorsLevel ∧
    (createResultFromObject (ctxGen (-1) false) .jsFalse cGen (T "ex:f") none sLvl1 =
        .ok (jsValViolation .jsFalse, sLvl1) ∧
      validateNodeAgainstConstraint 1 (ctxGen (-1) false) (T "ex:f") [T "ex:v"] cGen g0 sLvl1 =
        .ok (true, { sLvl1 with violationsCount := sLvl1.violationsCount + 1 })) :=
  ⟨rfl, by decide,
    suppression_skips_allocation_not_counter (ctxGen (-1) false) .jsFalse cGen (T "ex:f") none
      sLvl1 0 cGen (T "ex:f") (T "ex:v") g0 sLvl1 rfl (by decide) (by decide) (by decide)
      (by decide) rfl rfl rfl⟩

/-! ## Conformance-only preservation (C4) -/

/-- An engine call threw, with the accumulator and counter as at entry. -/
def errPreserving (r : ER Bool) (s : EngineState) : Prop :=
  ∃ e s₁, r = .error (e, s₁) ∧ s₁.results = s.results ∧
    s₁.violationsCount = s.violationsCount

/-- In conformance-only mode the normalizer never materializes anything and
always reports "no violation". -/
theorem confOnly_createResultFromObject (ctx : Ctx) (obj : JSVal) (c : Constraint)
    (fn : RDFTerm) (vn : Option RDFTerm) (s : EngineState)
    (h : ctx.conformanceOnly = true) :
    createResultFromObject ctx obj c fn vn s = .ok (false, s) := by
  cases obj <;> simp [createResultFromObject, h]

/-- In conformance-only mode an array outcome contributes nothing. -/
theorem confOnly_resultArrayLoop (ctx : Ctx) (c : Constraint) (fn : RDFTerm)
    (vn : Option RDFTerm) (xs : List JSVal) (acc : Bool) (s : EngineState)
    (h : ctx.conformanceOnly = true) :
    resultArrayLoop ctx c fn vn xs acc s = .ok (acc, s) := by
  induction xs generalizing acc with
  | nil => rfl
  | cons x rest ih =>
    simp [resultArrayLoop, confOnly_createResultFromObject ctx x c fn vn s h, ih]

/-- In conformance-only mode the generic loop reports no violation and
leaves the state unchanged, unless a validator throws (which preserves the
accumulator and counter). -/
theorem confOnly_genericValueLoop (ctx : Ctx) (c : Constraint) (vf : VFun)
    (fn : RDFTerm) (vs : List RDFTerm) (acc : Bool) (s : EngineState)
    (h : ctx.conformanceOnly = true) :
    genericValueLoop ctx c vf fn vs acc s = .ok (acc, s) ∨
      errPreserving (genericValueLoop ctx c vf fn vs acc s) s := by
  induction vs generalizing acc with
  | nil => exact Or.inl rfl
  | cons v rest ih =>
    rw [genericValueLoop]
    by_cases hm : maxErrorsReached ctx.configuration s = true
    · simp [hm]
    · rw [Bool.not_eq_true] at hm
      simp only [hm, Bool.false_eq_true, if_false]
      cases hexec : vf.execute fn (some v) with
      | error e => exact Or.inr ⟨e, _, rfl, rfl, rfl⟩
      | ok obj =>
        cases obj with
        | arr elems =>
          have hr := confOnly_resultArrayLoop ctx c fn (some v) elems false s h
          simp only [Nat.add_sub_cancel, hr]
          simpa using ih acc
        | val x =>
          have hc := confOnly_createResultFromObject ctx x c fn (some v) s h
          simp only [Nat.add_sub_cancel, hc]
          simpa using ih acc

/-- An OR-loop whose body reports no violation and keeps the state (or
throws preserving accumulator and counter) does the same. -/
theorem orLoop_const_state {α : Type} (f : α → EngineState → ER Bool) (s : EngineState)
    (hf : ∀ x, f x s = .ok (false, s) ∨ errPreserving (f x s) s) :
    ∀ (xs : List α) (acc : Bool),
      orLoop f xs acc s = .ok (acc, s) ∨ errPreserving (orLoop f xs acc s) s := by
  intro xs
  induction xs with
  | nil => exact fun acc => Or.inl rfl
  | cons x rest ih =>
    intro acc
    rcases hf x with hx | ⟨e, s₁, hx, hr, hv⟩
    · rw [orLoop, hx]
      simpa using ih acc
    · rw [orLoop, hx]
      exact Or.inr ⟨e, s₁, rfl, hr, hv⟩

/-- In conformance-only mode, below the batch limit, the dispatcher and the
shape validator report no violation with the state unchanged, unless a
throw occurs (which preserves the accumulator and counter). -/
theorem confOnly_dispatch (fuel : Nat) (ctx : Ctx) (g : DataGraph) (s : EngineState)
    (h : ctx.conformanceOnly = true)
    (hm : maxErrorsReached ctx.configuration s = false) :
    (∀ fn vns c, validateNodeAgainstConstraint fuel ctx fn vns c g s = .ok (false, s) ∨
      errPreserving (validateNodeAgainstConstraint fuel ctx fn vns c g s) s) ∧
    (∀ fn sh, validateNodeAgainstShape fuel ctx fn sh g s = .ok (false, s) ∨
      errPreserving (validateNodeAgainstShape fuel ctx fn sh g s) s) := by
  induction fuel with
  | zero =>
    constructor
    · intro fn vns c
      rw [validateNodeAgainstConstraint.eq_def]
      simp only [hm, Bool.false_eq_true, if_false]
      exact Or.inr ⟨.fuelExhausted, s, rfl, rfl, rfl⟩
    · intro fn sh
      rw [validateNodeAgainstShape.eq_def]
      simp only [hm, Bool.false_eq_true, if_false]
      exact Or.inr ⟨.fuelExhausted, s, rfl, rfl, rfl⟩
  | succ n ih =>
    constructor
    · intro fn vns c
      rw [validateNodeAgainstConstraint.eq_def]
      simp only [hm, Bool.false_eq_true, if_false]
      by_cases hpc : termEquals (T "sh:PropertyConstraintComponent") c.component.node = true
      · simp only [hpc, if_true]
        exact orLoop_const_state _ s (fun v => ih.2 v (ctx.getShape c.paramValue)) vns false
      · rw [Bool.not_eq_true] at hpc
        simp only [hpc, Bool.false_eq_true, if_false]
        cases hvf : (if c.shape.isPropertyShape then c.component.propertyValidationFunction
            else c.component.nodeValidationFunction) with
        | none => exact Or.inr ⟨_, s, rfl, rfl, rfl⟩
        | some vf =>
          by_cases hgen : (if c.shape.isPropertyShape then
              c.component.propertyValidationFunctionGeneric
            else c.component.nodeValidationFunctionGeneric) = true
          · simp only [hgen, if_true]
            exact confOnly_genericValueLoop ctx c vf fn vns false s h
          · rw [Bool.not_eq_true] at hgen
            simp only [hgen, Bool.false_eq_true, if_false]
            cases hexec : vf.execute fn none with
            | error e => exact Or.inr ⟨e, _, rfl, rfl, rfl⟩
            | ok obj =>
              cases obj with
              | arr elems =>
                have hr := confOnly_resultArrayLoop ctx c fn none elems false s h
                simp [Nat.add_sub_cancel, hr]
              | val x =>
                have hc := confOnly_createResultFromObject ctx x c fn none s h
                simp [Nat.add_sub_cancel, hc]
    · intro fn sh
      rw [validateNodeAgainstShape.eq_def]
      simp only [hm, Bool.false_eq_true, if_false]
      by_cases hd : sh.info.deactivated = true
      · simp [hd]
      · rw [Bool.not_eq_true] at hd
        simp only [hd, Bool.false_eq_true, if_false]
        exact orLoop_const_state _ s
          (fun c => ih.1 fn (sh.getValueNodes fn g) c) sh.constraints false
/-- C4 amended: in conformance-only mode (entered below the batch limit)
the report always contains zero results, and whenever no failure was stored
the boolean is false — regardless of violations, so it does not match the
non-conformance-only boolean. -/
theorem conformance_only_no_results_bool_false
    (fuel : Nat) (ctx : Ctx) (g : DataGraph) (s : EngineState)
    (h : ctx.conformanceOnly = true)
    (hm : maxErrorsReached ctx.configuration s = false) :
    (validateAll fuel ctx g s).2.results = [] ∧
    ((validateAll fuel ctx g s).2.validationError = none →
      (validateAll fuel ctx g s).1 = false) := by
  have hm0 : maxErrorsReached ctx.configuration
      { s with validationError := none, results := [] } = false := hm
  have hfocus : ∀ (sh : Shape) (fn : RDFTerm),
      (fun f s => validateNodeAgainstShape fuel ctx f sh g s) fn
          { s with validationError := none, results := [] } =
        .ok (false, { s with validationError := none, results := [] }) ∨
      errPreserving ((fun f s => validateNodeAgainstShape fuel ctx f sh g s) fn
          { s with validationError := none, results := [] })
        { s with validationError := none, results := [] } :=
    fun sh fn => (confOnly_dispatch fuel ctx g _ h hm0).2 fn sh
  have hshapes := orLoop_const_state
    (fun shape s => focusNodesLoop fuel ctx shape g (shape.getTargetNodes g) false s)
    { s with validationError := none, results := [] }
    (fun shape => by
      unfold focusNodesLoop
      exact orLoop_const_state _ _ (hfocus shape) (shape.getTargetNodes g) false)
    ctx.shapesWithTarget false
  rcases hshapes with hok | ⟨e, s₁, herr, hr, hv⟩
  · unfold validateAll
    simp only [hm, Bool.false_eq_true, if_false]
    unfold shapesLoop
    rw [hok]
    exact ⟨rfl, fun _ => rfl⟩
  · unfold validateAll
    simp only [hm, Bool.false_eq_true, if_false]
    unfold shapesLoop
    rw [herr]
    exact ⟨hr, fun hcontr => by simp at hcontr⟩

/-- Witness for the amended C4 at a concrete conformance-only run. -/
theorem conformance_only_no_results_bool_false_witness :
    (ctxGen (-1) true).conformanceOnly = true ∧
    maxErrorsReached (ctxGen (-1) true).configuration initState = false ∧
    ((validateAll 5 (ctxGen (-1) true) g0 initState).2.results = [] ∧
      ((validateAll 5 (ctxGen (-1) true) g0 initState).2.validationError = none →
        (validateAll 5 (ctxGen (-1) true) g0 initState).1 = false)) :=
  ⟨rfl, by decide,
    conformance_only_no_results_bool_false 5 (ctxGen (-1) true) g0 initState rfl (by decide)⟩

/-! ## Message substitution (C7) -/

/-- A replacement string without a dollar sign passes `GetSubstitution`
unchanged. -/
theorem substDollar_no_dollar (matched pre post : List Char) (rep : List Char)
    (h : Char.ofNat 36 ∉ rep) :
    substDollar matched pre post rep = rep := by
  induction rep with
  | nil => rfl
  | cons cr rest ih =>
    have hc : ¬ cr = Char.ofNat 36 := fun hc => h (hc ▸ List.mem_cons_self cr rest)
    rw [substDollar.eq_def]
    simp only [if_neg hc]
    rw [ih (fun hm => h (List.mem_cons_of_mem cr hm))]

/-- The text of the literal built by the modelled term factory is the given
text, whatever the language-or-datatype argument. -/
theorem termValue_termFactoryLiteralNum (v : String) (num : Int) :
    termValue (termFactoryLiteralNum v num) = v := by
  unfold termFactoryLiteralNum
  split <;> rfl

/-- `String.mk` then `.data` is the identity (definitional; stated for
rewriting). -/
theorem string_mk_data (l : List Char) : (String.mk l).data = l := rfl

/-- One `replace` call whose pattern first occurs exactly between `a` and
`b` (and whose replacement has no dollar sign) splices the replacement in
place of that occurrence. -/
theorem jsReplaceL_at (a pat b rep : List Char)
    (hfind : strFind (a ++ pat ++ b) pat = some a.length)
    (hrep : Char.ofNat 36 ∉ rep) :
    jsReplaceL (a ++ pat ++ b) pat rep = a ++ rep ++ b := by
  have ht : (a ++ pat ++ b).take a.length = a := by
    rw [List.append_assoc]
    exact List.take_left a (pat ++ b)
  have hd : (a ++ pat ++ b).drop (a.length + pat.length) = b := by
    rw [show a.length + pat.length = (a ++ pat).length from (List.length_append a pat).symm]
    exact List.drop_left (a ++ pat) b
  rw [jsReplaceL, hfind]
  show (a ++ pat ++ b).take a.length ++
      substDollar pat ((a ++ pat ++ b).take a.length)
        ((a ++ pat ++ b).drop (a.length + pat.length)) rep ++
      (a ++ pat ++ b).drop (a.length + pat.length) = a ++ rep ++ b
  rw [ht, hd, substDollar_no_dollar _ _ _ _ hrep]

/-- Fixture for C7: a constraint with one named parameter bound to
`http://example.org/Foo`. -/
def cParam : Constraint :=
  { shape := infoA, component := mkComp "ex:comp" none false
    paramValue := .namedNode "x"
    parameterValues := [("value", .namedNode "http://example.org/Foo")]
    componentMessages := [] }

/-- Fixture for C7: a context with the `ex:` namespace declared. -/
def ctxNs : Ctx := { ctxEmpty with namespaces := [("ex", "http://example.org/")] }

/-- C7 counterexample: with two occurrences of the placeholder, only the
first is replaced (JS `String.replace` with a string pattern replaces a
single occurrence), refuting the claim that every occurrence of the
placeholder is replaced. -/
theorem withSubstitutions_first_occurrence_only_cex :
    termValue (withSubstitutions ctxNs
        (.literal "Value \x7b$value\x7d and \x7b$value\x7d" "" "xsd:string") cParam) =
      "Value ex:Foo and \x7b$value\x7d" ∧
    "Value ex:Foo and \x7b$value\x7d" ≠ "Value ex:Foo and ex:Foo" := by
  constructor <;> decide

/-- C7 amended: for a message template whose first `{$name}` occurrence
sits between `a` and `b`, `withSubstitutions` replaces that first
occurrence of `{$name}` (and would likewise replace the first occurrence of
`{?name}`, absent here) with the parameter value's label; in particular the
claim's example produces "Value ex:Foo is invalid". -/
theorem withSubstitutions_replaces_first_occurrence
    (ctx : Ctx) (c : Constraint) (key : String) (tval : RDFTerm)
    (a b : List Char) (lang dt : String)
    (h1 : c.parameterValues = [(key, tval)])
    (h2 : strFind (a ++ ("\x7b$" ++ key ++ "\x7d").data ++ b)
      ("\x7b$" ++ key ++ "\x7d").data = some a.length)
    (h3 : Char.ofNat 36 ∉ (nodeLabel ctx.namespaces tval).data)
    (h4 : strFind (a ++ (nodeLabel ctx.namespaces tval).data ++ b)
      ("\x7b?" ++ key ++ "\x7d").data = none) :
    termValue (withSubstitutions ctx
        (RDFTerm.literal (String.mk (a ++ ("\x7b$" ++ key ++ "\x7d").data ++ b)) lang dt) c) =
      String.mk (a ++ (nodeLabel ctx.namespaces tval).data ++ b) := by
  rw [withSubstitutions, h1]
  simp only [List.foldl_cons, List.foldl_nil]
  rw [termValue_termFactoryLiteralNum]
  refine String.ext ?_
  show jsReplaceL (String.mk (jsReplaceL
      (a ++ ("\x7b$" ++ key ++ "\x7d").data ++ b)
      ("\x7b$" ++ key ++ "\x7d").data (nodeLabel ctx.namespaces tval).data)).data
      ("\x7b?" ++ key ++ "\x7d").data (nodeLabel ctx.namespaces tval).data =
    a ++ (nodeLabel ctx.namespaces tval).data ++ b
  rw [jsReplaceL_at a _ b _ h2 h3]
  show jsReplaceL (a ++ (nodeLabel ctx.namespaces tval).data ++ b)
      ("\x7b?" ++ key ++ "\x7d").data (nodeLabel ctx.namespaces tval).data =
    a ++ (nodeLabel ctx.namespaces tval).data ++ b
  rw [jsReplaceL, h4]

/-- Witness for the amended C7 at the claim's own example. -/
theorem withSubstitutions_replaces_first_occurrence_witness :
    cParam.parameterValues = [("value", .namedNode "http://example.org/Foo")] ∧
    strFind ("Value ".data ++ ("\x7b$" ++ "value" ++ "\x7d").data ++ " is invalid".data)
      ("\x7b$" ++ "value" ++ "\x7d").data = some "Value ".data.length ∧
    Char.ofNat 36 ∉ (nodeLabel ctxNs.namespaces (.namedNode "http://example.org/Foo")).data ∧
    strFind ("Value ".data ++
        (nodeLabel ctxNs.namespaces (.namedNode "http://example.org/Foo")).data ++
        " is invalid".data)
      ("\x7b?" ++ "value" ++ "\x7d").data = none ∧
    termValue (withSubstitutions ctxNs
        (RDFTerm.literal (String.mk ("Value ".data ++ ("\x7b$" ++ "value" ++ "\x7d").data ++
          " is invalid".data)) "" "xsd:string") cParam) =
      String.mk ("Value ".data ++
        (nodeLabel ctxNs.namespaces (.namedNode "http://example.org/Foo")).data ++
        " is invalid".data) ∧
    String.mk ("Value ".data ++
        (nodeLabel ctxNs.namespaces (.namedNode "http://example.org/Foo")).data ++
        " is invalid".data) = "Value ex:Foo is invalid" :=
  ⟨rfl, by decide, by decide, by decide,
    withSubstitutions_replaces_first_occurrence ctxNs cParam "value"
      (.namedNode "http://example.org/Foo") "Value ".data " is invalid".data "" "xsd:string"
      rfl (by decide) (by decide) (by decide),
    by decide⟩

/-! ## Property-constraint recursion (C6) -/

def infoN : ShapeInfo := mkInfo "ex:N"

/-- Two always-violating generic constraints on the nested shape. -/
def cN1 : Constraint := mkConstraint infoN "ex:comp1" (some vfFalse) true

def cN2 : Constraint := mkConstraint infoN "ex:comp2" (some vfFalse) true

/-- A nested shape with two constraints. -/
def shapeNested : Shape :=
  { info := infoN, constraints := [cN1, cN2]
    getTargetNodes := fun _ => [], getValueNodes := fun v _ => [v] }

/-- An outer property constraint referring to the nested shape. -/
def cPropOuter : Constraint :=
  { shape := infoA
    component :=
      { node := T "sh:PropertyConstraintComponent"
        propertyValidationFunction := none, nodeValidationFunction := none
        propertyValidationFunctionGeneric := false, nodeValidationFunctionGeneric := false }
    paramValue := .namedNode "ex:N", parameterValues := [], componentMessages := [] }

def ctxC6 : Ctx := { ctxEmpty with getShape := fun _ => shapeNested }

/-- C6 counterexample: a single violating value node yields two
ValidationResults (one per failing constraint of the nested shape), so the
recursion does not produce one result per violating value node. -/
theorem nested_results_not_one_per_value_node_cex :
    erBool (validateNodeAgainstConstraint 5 ctxC6 (T "ex:f") [T "ex:v"] cPropOuter g0
      initState) = some true ∧
    (erState (validateNodeAgainstConstraint 5 ctxC6 (T "ex:f") [T "ex:v"] cPropOuter g0
        initState)).map (fun st => countResults st.results) = some 2 ∧
    [T "ex:v"].length = 1 := by
  refine ⟨?_, ?_, rfl⟩ <;> decide

/-- The six quads `createResult` pushes for a violating value node of a
simple nested property-shape evaluation. -/
def resultQuadsFor (c' : Constraint) (v : RDFTerm) (k : Nat) : List Quad :=
  [⟨.blankNode ("b" ++ toString k), T "rdf:type", T "sh:ValidationResult"⟩,
   ⟨.blankNode ("b" ++ toString k), T "sh:resultSeverity", c'.shape.severity⟩,
   ⟨.blankNode ("b" ++ toString k), T "sh:sourceConstraintComponent", c'.component.node⟩,
   ⟨.blankNode ("b" ++ toString k), T "sh:sourceShape", c'.shape.shapeNode⟩,
   ⟨.blankNode ("b" ++ toString k), T "sh:focusNode", v⟩,
   ⟨.blankNode ("b" ++ toString k), T "sh:value", v⟩]

/-- The state after materializing one such result and counting it. -/
def appendResult (c' : Constraint) (v : RDFTerm) (st : EngineState) : EngineState :=
  { st with results := st.results ++ resultQuadsFor c' v st.nextBlankId
            nextBlankId := st.nextBlankId + 1
            violationsCount := st.violationsCount + 1 }

/-- Result counting distributes over append. -/
theorem countResults_append (xs ys : List Quad) :
    countResults (xs ++ ys) = countResults xs + countResults ys := by
  simp [countResults, List.filter_append]

/-- Each materialized block counts as exactly one ValidationResult. -/
theorem countResults_resultQuadsFor (c' : Constraint) (v : RDFTerm) (k : Nat) :
    countResults (resultQuadsFor c' v k) = 1 := rfl

/-- Evaluating the nested shape (one generic boolean constraint, value
nodes = the focus node itself) on one value node: a conforming node leaves
the state alone; a violating one materializes exactly one result block and
bumps the counter. -/
theorem nested_shape_eval (n : Nat) (ctx : Ctx) (g : DataGraph) (nst : Shape)
    (c' : Constraint) (p : RDFTerm → Bool)
    (h0 : ctx.conformanceOnly = false)
    (h1 : ctx.configuration.validationErrorBatch = -1)
    (h3 : nst.info.deactivated = false)
    (h4 : nst.constraints = [c'])
    (h5 : c'.shape = nst.info)
    (h6 : nst.info.path = none)
    (h7 : c'.component.nodeValidationFunction =
      some ⟨fun fn _ => .ok (.val (if p fn then .jsTrue else .jsFalse))⟩)
    (h8 : c'.component.nodeValidationFunctionGeneric = true)
    (h9 : termEquals (T "sh:PropertyConstraintComponent") c'.component.node = false)
    (h10 : ∀ w, nst.getValueNodes w g = [w])
    (h11 : ∀ t, ctx.shapeMessages t = [])
    (h12 : c'.componentMessages = [])
    (v : RDFTerm) (st : EngineState) (hst : st.recordErrorsLevel = 0) :
    validateNodeAgainstShape (n + 2) ctx v nst g st =
      .ok (!(p v), if p v then st else appendResult c' v st) := by
  have hmax : ∀ s' : EngineState, maxErrorsReached ctx.configuration s' = false :=
    fun s' => by simp [maxErrorsReached, h1]
  have hpath : c'.shape.isPropertyShape = false := by
    simp [ShapeInfo.isPropertyShape, h5, h6]
  have hcon : validateNodeAgainstConstraint (n + 1) ctx v [v] c' g st =
      .ok (!(p v), if p v then st else appendResult c' v st) := by
    rw [validateNodeAgainstConstraint.eq_def]
    simp only [hmax, Bool.false_eq_true, if_false, h9, hpath, h7, h8, if_true]
    rw [genericValueLoop]
    simp only [hmax, Bool.false_eq_true, if_false]
    by_cases hp : p v = true
    · simp [hp, createResultFromObject, genericValueLoop]
    · rw [Bool.not_eq_true] at hp
      simp [hp, createResultFromObject, hst, h0, createResult, addResultProperty,
        createResultMessages, h11, h12, genericValueLoop, appendResult, resultQuadsFor,
        List.append_assoc, hpath]
  rw [validateNodeAgainstShape.eq_def]
  simp only [hmax, Bool.false_eq_true, if_false, h3, h10, h4]
  rw [orLoop, hcon]
  by_cases hp : p v = true
  · simp [hp, orLoop]
  · rw [Bool.not_eq_true] at hp
    simp [hp, orLoop]

/-- Folding the nested evaluation over the outer value nodes ORs the
per-node violations and appends exactly one result block per violating
node, each attributed to the nested constraint's shape. -/
theorem nested_loop_eval (n : Nat) (ctx : Ctx) (g : DataGraph) (nst : Shape)
    (c' : Constraint) (p : RDFTerm → Bool)
    (h0 : ctx.conformanceOnly = false)
    (h1 : ctx.configuration.validationErrorBatch = -1)
    (h3 : nst.info.deactivated = false)
    (h4 : nst.constraints = [c'])
    (h5 : c'.shape = nst.info)
    (h6 : nst.info.path = none)
    (h7 : c'.component.nodeValidationFunction =
      some ⟨fun fn _ => .ok (.val (if p fn then .jsTrue else .jsFalse))⟩)
    (h8 : c'.component.nodeValidationFunctionGeneric = true)
    (h9 : termEquals (T "sh:PropertyConstraintComponent") c'.component.node = false)
    (h10 : ∀ w, nst.getValueNodes w g = [w])
    (h11 : ∀ t, ctx.shapeMessages t = [])
    (h12 : c'.componentMessages = []) :
    ∀ (vs : List RDFTerm) (acc : Bool) (st : EngineState), st.recordErrorsLevel = 0 →
      ∃ st' Δ,
        orLoop (fun w s => validateNodeAgainstShape (n + 2) ctx w nst g s) vs acc st =
          .ok (acc || vs.any (fun w => !(p w)), st') ∧
        st'.results = st.results ++ Δ ∧
        countResults Δ = (vs.filter (fun w => !(p w))).length ∧
        (∀ q ∈ Δ, termEquals q.pred (T "sh:sourceShape") = true →
          q.obj = c'.shape.shapeNode) ∧
        st'.recordErrorsLevel = 0 := by
  intro vs
  induction vs with
  | nil =>
    intro acc st hst
    exact ⟨st, [], by simp [orLoop], by simp, by simp [countResults], by simp, hst⟩
  | cons v rest ih =>
    intro acc st hst
    rw [orLoop,
      nested_shape_eval n ctx g nst c' p h0 h1 h3 h4 h5 h6 h7 h8 h9 h10 h11 h12 v st hst]
    by_cases hp : p v = true
    · simp only [hp, if_true]
      obtain ⟨st', Δ, hb, hres, hcount, hsrc, hlvl⟩ := ih acc st hst
      refine ⟨st', Δ, ?_, hres, ?_, hsrc, hlvl⟩
      · simpa [hp] using hb
      · simp [List.filter_cons, hp, hcount]
    · rw [Bool.not_eq_true] at hp
      simp only [hp, Bool.false_eq_true, if_false, Bool.not_false]
      have hlvl2 : (appendResult c' v st).recordErrorsLevel = 0 := hst
      obtain ⟨st', Δ', hb, hres, hcount, hsrc, hlvl⟩ :=
        ih (acc || true) (appendResult c' v st) hlvl2
      refine ⟨st', resultQuadsFor c' v st.nextBlankId ++ Δ', ?_, ?_, ?_, ?_, hlvl⟩
      · rw [hb]
        simp [hp]
      · rw [hres]
        simp [appendResult, List.append_assoc]
      · rw [countResults_append, countResults_resultQuadsFor]
        simp [List.filter_cons, hp, hcount, Nat.add_comm]
      · intro q hq hpred
        rcases List.mem_append.mp hq with hq1 | hq2
        · simp only [resultQuadsFor, List.mem_cons, List.mem_singleton,
            List.not_mem_nil, or_false] at hq1
          rcases hq1 with rfl | rfl | rfl | rfl | rfl | rfl
          all_goals first
            | rfl
            | simp [termEquals, T] at hpred
        · exact hsrc q hq2 hpred

/-- C6 amended: for a property-constraint component, the dispatcher
recurses into the nested shape once per value node and ORs the boolean
results, creating no ValidationResult itself; with the nested shape
carrying a single generic boolean constraint, the recursion materializes
exactly one result per violating value node, and every materialized quad
naming a source shape names the nested shape, never the (distinct) outer
shape. -/
theorem property_constraint_recursion
    (n : Nat) (ctx : Ctx) (focus : RDFTerm) (valueNodes : List RDFTerm) (c : Constraint)
    (g : DataGraph) (s : EngineState) (c' : Constraint) (p : RDFTerm → Bool)
    (h0 : ctx.conformanceOnly = false)
    (h1 : ctx.configuration.validationErrorBatch = -1)
    (h2 : c.component.node = T "sh:PropertyConstraintComponent")
    (h3 : (ctx.getShape c.paramValue).info.deactivated = false)
    (h4 : (ctx.getShape c.paramValue).constraints = [c'])
    (h5 : c'.shape = (ctx.getShape c.paramValue).info)
    (h6 : (ctx.getShape c.paramValue).info.path = none)
    (h7 : c'.component.nodeValidationFunction =
      some ⟨fun fn _ => .ok (.val (if p fn then .jsTrue else .jsFalse))⟩)
    (h8 : c'.component.nodeValidationFunctionGeneric = true)
    (h9 : termEquals (T "sh:PropertyConstraintComponent") c'.component.node = false)
    (h10 : ∀ w, (ctx.getShape c.paramValue).getValueNodes w g = [w])
    (h11 : ∀ t, ctx.shapeMessages t = [])
    (h12 : c'.componentMessages = [])
    (h13 : s.recordErrorsLevel = 0)
    (h14 : c.shape.shapeNode ≠ (ctx.getShape c.paramValue).info.shapeNode) :
    ∃ s' Δ,
      validateNodeAgainstConstraint (n + 3) ctx focus valueNodes c g s =
        .ok (valueNodes.any (fun w => !(p w)), s') ∧
      s'.results = s.results ++ Δ ∧
      countResults Δ = (valueNodes.filter (fun w => !(p w))).length ∧
      ∀ q ∈ Δ, termEquals q.pred (T "sh:sourceShape") = true →
        q.obj = (ctx.getShape c.paramValue).info.shapeNode ∧ q.obj ≠ c.shape.shapeNode := by
  have hmax : maxErrorsReached ctx.configuration s = false := by
    simp [maxErrorsReached, h1]
  have hpcc : termEquals (T "sh:PropertyConstraintComponent") c.component.node = true := by
    rw [h2]; decide
  obtain ⟨st', Δ, hb, hres, hcount, hsrc, _⟩ :=
    nested_loop_eval n ctx g (ctx.getShape c.paramValue) c' p h0 h1 h3 h4 h5 h6 h7 h8 h9
      h10 h11 h12 valueNodes false s h13
  have key : validateNodeAgainstConstraint (n + 3) ctx focus valueNodes c g s =
      orLoop (fun w s => validateNodeAgainstShape (n + 2) ctx w (ctx.getShape c.paramValue) g s)
        valueNodes false s := by
    rw [validateNodeAgainstConstraint.eq_def]
    simp [hmax, hpcc]
  refine ⟨st', Δ, ?_, hres, hcount, ?_⟩
  · rw [key, hb]
    simp
  · intro q hq hpred
    have hobj := hsrc q hq hpred
    rw [h5] at hobj
    refine ⟨hobj, ?_⟩
    rw [hobj]
    exact Ne.symm h14

/-- Witness predicate: every node violates. -/
def pW : RDFTerm → Bool := fun _ => false

/-- Witness nested constraint built over `pW`. -/
def cNW : Constraint :=
  { shape := infoN
    component :=
      { node := .namedNode "ex:comp"
        propertyValidationFunction := none
        nodeValidationFunction :=
          some ⟨fun fn _ => .ok (.val (if pW fn then .jsTrue else .jsFalse))⟩
        propertyValidationFunctionGeneric := false
        nodeValidationFunctionGeneric := true }
    paramValue := .namedNode "x", parameterValues := [], componentMessages := [] }

/-- Witness nested shape with the single constraint. -/
def shapeNestedW : Shape :=
  { info := infoN, constraints := [cNW]
    getTargetNodes := fun _ => [], getValueNodes := fun v _ => [v] }

def ctxC6W : Ctx := { ctxEmpty with getShape := fun _ => shapeNestedW }

/-- Witness for the amended C6 at two violating value nodes. -/
theorem property_constraint_recursion_witness :
    ctxC6W.conformanceOnly = false ∧
    cPropOuter.component.node = T "sh:PropertyConstraintComponent" ∧
    (ctxC6W.getShape cPropOuter.paramValue).constraints = [cNW] ∧
    cPropOuter.shape.shapeNode ≠ (ctxC6W.getShape cPropOuter.paramValue).info.shapeNode ∧
    (∃ s' Δ,
      validateNodeAgainstConstraint (0 + 3) ctxC6W (T "ex:f") [T "ex:v1", T "ex:v2"]
          cPropOuter g0 initState =
        .ok (([T "ex:v1", T "ex:v2"].any (fun w => !(pW w))), s') ∧
      s'.results = initState.results ++ Δ ∧
      countResults Δ = ([T "ex:v1", T "ex:v2"].filter (fun w => !(pW w))).length ∧
      ∀ q ∈ Δ, termEquals q.pred (T "sh:sourceShape") = true →
        q.obj = (ctxC6W.getShape cPropOuter.paramValue).info.shapeNode ∧
        q.obj ≠ cPropOuter.shape.shapeNode) :=
  ⟨rfl, rfl, rfl, by decide,
    property_constraint_recursion 0 ctxC6W (T "ex:f") [T "ex:v1", T "ex:v2"] cPropOuter g0
      initState cNW pW rfl rfl rfl rfl rfl rfl rfl rfl rfl (by decide) (fun w => rfl)
      (fun t => rfl) rfl rfl (by decide)⟩

end VE
